import Mathlib

/-!
Verification of `breadx-shm` (X11 MIT-SHM wrapper).

Shallow embedding of the repository's two source modules:

* `src/shm.rs` — `ShmBlock` (raw SysV shared-memory segment) and
  `ShmTransport` (a private heap buffer shadowing a peer-writable segment);
* `src/lib.rs` — `ShmSegment` / `ShmBuffer` wrappers and the
  `ShmDisplayExt` extension trait (`shm_put_ximage`, `shm_get_ximage`, …).

Byte buffers are modelled as `List Nat`; OS and X11 outcomes that the code
observes (syscall success/failure, replies, the event stream) are passed in
explicitly as oracles.  Rust panics (`unwrap`, `copy_from_slice` length
mismatch) are modelled as a distinct outcome, never conflated with `Err`.
-/

namespace BreadxShm

/-!
Events (breadx `protocol::Event`, restricted to what the code inspects).

`shm_put_ximage` only ever distinguishes `Event::ShmCompletion` from every
other event, and of a completion event only reads its `shmseg` field.  The
`payload` of a completion and the `tag` of any other event stand for all the
fields the code never looks at, so "forwarded unchanged" is checkable.
-/

/-- A ShmCompletion event: `shmseg` is the segment id, `payload` abstracts
every other field of the event (the code never reads them). -/
structure CompletionEvent where
  shmseg : Nat
  payload : Nat
  deriving DecidableEq, Repr

/-- The event union as seen by `shm_put_ximage`: a ShmCompletion event or
any other event (abstracted by an opaque tag). -/
inductive Event where
  | shmCompletion (e : CompletionEvent) : Event
  | other (tag : Nat) : Event
  deriving DecidableEq, Repr

/-- Does this event break the wait loop for segment `segId`?  Mirrors the
test `shm_event.shmseg == image.storage().seg_id` in `shm_put_ximage`. -/
def Event.matchesSeg (segId : Nat) : Event → Bool
  | Event.shmCompletion e => e.shmseg == segId
  | Event.other _ => false

/-- Outcome of running the completion-wait loop of `shm_put_ximage` against
the events the display's stream has yielded so far.  `completed q` means
the loop hit `break` with the caller-supplied queue in state `q`;
`blocked q` means every yielded event was consumed without a `break` and
the loop is sitting in `wait_for_event` waiting for more, the queue having
grown to `q`. -/
inductive WaitOutcome where
  | completed (queue : List Event)
  | blocked (queue : List Event)
  deriving DecidableEq, Repr

/-- Did the wait loop return (exit via `break`)? -/
def WaitOutcome.isCompleted : WaitOutcome → Bool
  | WaitOutcome.completed _ => true
  | WaitOutcome.blocked _ => false

/-- The completion wait loop of `ShmDisplayExt::shm_put_ximage`:

```rust
loop {
    let event = self.wait_for_event()?;
    let event = match event {
        Event::ShmCompletion(shm_event) => {
            if shm_event.shmseg == image.storage().seg_id { break; }
            Event::ShmCompletion(shm_event)
        }
        event => event,
    };
    queue.extend(Some(event));
}
```

`events` is the sequence yielded by successive `wait_for_event` calls and
`queue` the caller-supplied queue so far. -/
def putWaitLoop (segId : Nat) : List Event → List Event → WaitOutcome
  | [], queue => WaitOutcome.blocked queue
  | e :: rest, queue =>
    match e with
    | Event.shmCompletion shmEvent =>
      if shmEvent.shmseg == segId then
        WaitOutcome.completed queue
      else
        putWaitLoop segId rest (queue ++ [Event.shmCompletion shmEvent])
    | ev => putWaitLoop segId rest (queue ++ [ev])

/-- The first `n` events yielded by an infinite event stream. -/
def streamTake (stream : Nat → Event) (n : Nat) : List Event :=
  (List.range n).map stream

lemma putWaitLoop_cons_nonmatch (segId : Nat) (e : Event) (rest queue : List Event)
    (h : Event.matchesSeg segId e = false) :
    putWaitLoop segId (e :: rest) queue = putWaitLoop segId rest (queue ++ [e]) := by
  cases e with
  | shmCompletion c =>
    simp only [Event.matchesSeg] at h
    simp [putWaitLoop, h]
  | other t =>
    simp [putWaitLoop]

lemma putWaitLoop_cons_match (segId : Nat) (e : Event) (rest queue : List Event)
    (h : Event.matchesSeg segId e = true) :
    putWaitLoop segId (e :: rest) queue = WaitOutcome.completed queue := by
  cases e with
  | shmCompletion c =>
    simp only [Event.matchesSeg] at h
    simp [putWaitLoop, h]
  | other t =>
    simp [Event.matchesSeg] at h

/-- The loop breaks iff some yielded event is a completion matching the
segment id. -/
lemma putWaitLoop_isCompleted_iff (segId : Nat) (events : List Event) :
    ∀ queue : List Event,
      (putWaitLoop segId events queue).isCompleted = true ↔
        ∃ e ∈ events, Event.matchesSeg segId e = true := by
  induction events with
  | nil => intro queue; simp [putWaitLoop, WaitOutcome.isCompleted]
  | cons e rest ih =>
    intro queue
    by_cases h : Event.matchesSeg segId e = true
    · rw [putWaitLoop_cons_match segId e rest queue h]
      simp only [WaitOutcome.isCompleted, true_iff]
      exact ⟨e, List.mem_cons_self e rest, h⟩
    · have h' : Event.matchesSeg segId e = false := by
        simpa using h
      rw [putWaitLoop_cons_nonmatch segId e rest queue h']
      rw [ih (queue ++ [e])]
      constructor
      · rintro ⟨x, hx, hm⟩
        exact ⟨x, List.mem_cons_of_mem e hx, hm⟩
      · rintro ⟨x, hx, hm⟩
        rcases List.mem_cons.mp hx with rfl | hx'
        · exact absurd hm h
        · exact ⟨x, hx', hm⟩

/-- When the loop breaks, the final queue is the initial queue followed by
exactly the events that arrived before the first matching completion. -/
lemma putWaitLoop_completed_eq (segId : Nat) (events : List Event) :
    ∀ queue q : List Event,
      putWaitLoop segId events queue = WaitOutcome.completed q →
        q = queue ++ events.takeWhile (fun e => !Event.matchesSeg segId e) := by
  induction events with
  | nil => intro queue q h; simp [putWaitLoop] at h
  | cons e rest ih =>
    intro queue q h
    by_cases hm : Event.matchesSeg segId e = true
    · rw [putWaitLoop_cons_match segId e rest queue hm] at h
      cases h
      simp [List.takeWhile_cons, hm]
    · have h' : Event.matchesSeg segId e = false := by simpa using hm
      rw [putWaitLoop_cons_nonmatch segId e rest queue h'] at h
      have := ih (queue ++ [e]) q h
      simp [List.takeWhile_cons, h', this]

/-- While the loop is still blocked, every yielded event has been appended
to the queue, in order. -/
lemma putWaitLoop_blocked_eq (segId : Nat) (events : List Event) :
    ∀ queue q : List Event,
      putWaitLoop segId events queue = WaitOutcome.blocked q →
        q = queue ++ events := by
  induction events with
  | nil =>
    intro queue q h
    simp only [putWaitLoop, WaitOutcome.blocked.injEq] at h
    simp [← h]
  | cons e rest ih =>
    intro queue q h
    by_cases hm : Event.matchesSeg segId e = true
    · rw [putWaitLoop_cons_match segId e rest queue hm] at h
      cases h
    · have h' : Event.matchesSeg segId e = false := by simpa using hm
      rw [putWaitLoop_cons_nonmatch segId e rest queue h'] at h
      have := ih (queue ++ [e]) q h
      simp [this]

/-!
`src/shm.rs`: the raw segment (`ShmBlock`) and the shadowed transport
(`ShmTransport`).

The OS's SysV shared-memory facility is modelled by `OsState` (the set of
live segment ids) together with an `OsOracle` fixing, for one
`shmget`/`shmat` pair, whether each call fails and what bytes the fresh
segment initially holds.
-/

/-- Errors of `ShmBlock::with_flags` (`std::io::Error` from the `syscall!`
macro): `allocationError` when `shmget` returns `-1`, `mapError` when
`shmat` returns a null pointer. -/
inductive OsError where
  | allocationError
  | mapError
  deriving DecidableEq, Repr

/-- OS-level shared-memory accounting: the next fresh segment id and the
ids of segments currently allocated (not yet destroyed by
`shmctl(IPC_RMID)`). -/
structure OsState where
  nextId : Nat
  allocated : List Nat
  deriving DecidableEq, Repr

/-- Outcomes of the two syscalls made by one `ShmBlock::with_flags` call,
plus the initial contents the OS gives the freshly mapped segment. -/
structure OsOracle where
  shmgetFails : Bool
  shmatFails : Bool
  segInit : Nat → Nat

/-- `ShmBlock` (src/shm.rs): the OS segment id and the mapped byte region
(`ptr` is a slice, so carries its own length). -/
structure ShmBlock where
  shm_id : Nat
  data : List Nat
  deriving DecidableEq, Repr

/-- `libc::S_IRWXU` (owner read/write/execute). -/
def S_IRWXU : Nat := 0o700
/-- `libc::S_IRGRP` (group read). -/
def S_IRGRP : Nat := 0o040
/-- `libc::S_IROTH` (others read). -/
def S_IROTH : Nat := 0o004
/-- `libc::S_IRWXG` (group read/write/execute). -/
def S_IRWXG : Nat := 0o070
/-- `libc::S_IRWXO` (others read/write/execute). -/
def S_IRWXO : Nat := 0o007

/-- The mode flags `ShmBlock::new` passes to `with_flags`:
`S_IRWXU | S_IRGRP | S_IROTH`. -/
def ShmBlock.newFlags : Nat := S_IRWXU ||| S_IRGRP ||| S_IROTH

/-- The mode flags `ShmTransport::new` passes to `ShmBlock::with_flags`:
`S_IRWXU | S_IRWXG | S_IRWXO`. -/
def ShmTransport.newFlags : Nat := S_IRWXU ||| S_IRWXG ||| S_IRWXO

/-- `ShmBlock::with_flags` (src/shm.rs lines 178–196).  `shmget` allocates
a fresh OS segment; on `shmat` failure the `syscall!` macro returns the
error immediately — the function body contains no `shmctl(IPC_RMID)` call
and no `ShmBlock` value exists yet, so no destructor runs: the allocated
id stays in `OsState.allocated`.  (`flags` selects permissions; it does
not affect which control path is taken.) -/
def ShmBlock.with_flags (os : OsState) (oracle : OsOracle) (len : Nat)
    (_flags : Nat) : OsState × Except OsError ShmBlock :=
  if oracle.shmgetFails then
    (os, Except.error OsError.allocationError)
  else
    let shm_id := os.nextId
    let os1 : OsState := ⟨shm_id + 1, os.allocated ++ [shm_id]⟩
    if oracle.shmatFails then
      (os1, Except.error OsError.mapError)
    else
      (os1, Except.ok ⟨shm_id, (List.range len).map oracle.segInit⟩)

/-- `ShmBlock::new`: `with_flags` at mode 0744. -/
def ShmBlock.new (os : OsState) (oracle : OsOracle) (len : Nat) :
    OsState × Except OsError ShmBlock :=
  ShmBlock.with_flags os oracle len ShmBlock.newFlags

/-- `Drop for ShmBlock`: `shmdt` then `shmctl(IPC_RMID)`, removing the
segment from the OS's allocated set. -/
def ShmBlock.dropBlock (os : OsState) (b : ShmBlock) : OsState :=
  { os with allocated := os.allocated.erase b.shm_id }

/-- `impl AsRef<[u8]> for ShmBlock`: the mapped bytes. -/
def ShmBlock.as_ref (b : ShmBlock) : List Nat := b.data

/-- `impl AsMut<[u8]> for ShmBlock` (src/shm.rs lines 83–89): returns the
mutable view unconditionally.  `ShmBlock` has no `shared` flag and the
body (`unsafe { self.ptr.as_mut() }`) consults no state and has no failure
path, so the embedding is the always-`some` function; `none` (abort /
failure) is never produced. -/
def ShmBlock.as_mut (b : ShmBlock) : Option (List Nat) := some b.data

/-- `ShmBlock::shm_id`. -/
def ShmBlock.shmId (b : ShmBlock) : Nat := b.shm_id

/-- `ShmBlock::len`. -/
def ShmBlock.len (b : ShmBlock) : Nat := b.data.length

/-- Rust `<[u8]>::copy_from_slice`: panics (modelled `none`) unless the
two slices have equal length; otherwise the destination becomes a copy of
the source. -/
def copyFromSlice (dst src : List Nat) : Option (List Nat) :=
  if dst.length = src.length then some src else none

/-- `ShmTransport` (src/shm.rs): a private heap buffer (`block`) plus the
OS shared segment (`segment`) it shadows. -/
structure ShmTransport where
  block : List Nat
  segment : ShmBlock
  deriving DecidableEq, Repr

/-- `ShmTransport::new` (src/shm.rs lines 233–245): zero-fill a heap
buffer of length `len` (`vec![0; len]`), then create the segment at mode
0777, propagating its error with `?`. -/
def ShmTransport.new (os : OsState) (oracle : OsOracle) (len : Nat) :
    OsState × Except OsError ShmTransport :=
  let block := List.replicate len 0
  match ShmBlock.with_flags os oracle len ShmTransport.newFlags with
  | (os1, Except.error e) => (os1, Except.error e)
  | (os1, Except.ok seg) => (os1, Except.ok ⟨block, seg⟩)

/-- `impl AsRef<[u8]> for ShmTransport`: the private buffer only. -/
def ShmTransport.as_ref (t : ShmTransport) : List Nat := t.block

/-- `impl AsMut<[u8]> for ShmTransport`: mutable view of the private
buffer only (no failure path, and it cannot reach the segment). -/
def ShmTransport.as_mut (t : ShmTransport) : List Nat := t.block

/-- An arbitrary write through the `&mut [u8]` view handed out by
`as_mut`: positions can be overwritten (`f index oldByte`), but a slice
write can never change the length. -/
def ShmTransport.writeBlock (t : ShmTransport) (f : Nat → Nat → Nat) :
    ShmTransport :=
  { t with block := t.block.mapIdx f }

/-- `ShmTransport::shm_id`. -/
def ShmTransport.shm_id (t : ShmTransport) : Nat := t.segment.shm_id

/-- `ShmTransport::repopulate`:
`self.block.copy_from_slice(&self.segment)` — pull the segment into the
private buffer (`none` models the length-mismatch panic). -/
def ShmTransport.repopulate (t : ShmTransport) : Option ShmTransport :=
  (copyFromSlice t.block t.segment.data).map (fun b => { t with block := b })

/-- `ShmTransport::publish`:
`self.segment.copy_from_slice(&self.block)` — push the private buffer
into the segment. -/
def ShmTransport.publish (t : ShmTransport) : Option ShmTransport :=
  (copyFromSlice t.segment.data t.block).map
    (fun s => { t with segment := { t.segment with data := s } })

/-- The length invariant of `ShmTransport`: private buffer and shared
segment have equal length. -/
def ShmTransport.lenInv (t : ShmTransport) : Prop :=
  t.block.length = t.segment.data.length

instance (t : ShmTransport) : Decidable t.lenInv := by
  unfold ShmTransport.lenInv; infer_instance

/-!
`src/lib.rs`: X11-attached wrappers and the `ShmDisplayExt` convenience
paths.  X11 outcomes (`generate_xid`, `shm_attach_checked`,
`shm_get_image_immediate`) are passed in as explicit results.
-/

/-- A `breadx::Error`: protocol or connection failure, abstracted by a
code. -/
structure XError where
  code : Nat
  deriving DecidableEq, Repr

/-- `ShmSegment` (src/lib.rs): a send-side block plus the X11 segment
id. -/
structure ShmSegment where
  block : ShmBlock
  seg_id : Nat
  deriving DecidableEq, Repr

/-- `ShmBuffer` (src/lib.rs): a receive-side transport plus the X11
segment id. -/
structure ShmBuffer where
  transport : ShmTransport
  seg_id : Nat
  deriving DecidableEq, Repr

/-- `impl AsMut<[u8]> for ShmSegment` / `DerefMut`: delegates to
`ShmBlock::as_mut`, hence also unconditional. -/
def ShmSegment.as_mut (s : ShmSegment) : Option (List Nat) :=
  s.block.as_mut

/-- `impl AsRef<[u8]> for ShmBuffer`: the transport's private buffer. -/
def ShmBuffer.as_ref (b : ShmBuffer) : List Nat := b.transport.as_ref

/-- `ShmBuffer::repopulate`: delegates to `ShmTransport::repopulate`. -/
def ShmBuffer.repopulate (b : ShmBuffer) : Option ShmBuffer :=
  (b.transport.repopulate).map (fun t => { b with transport := t })

/-- How a call into the library came back to the caller: a value, a
recoverable `Err`, or a panic (`unwrap` on a failed creation), which
unwinds/aborts instead of returning. -/
inductive CallOutcome (α : Type) where
  | ok (value : α)
  | err (e : XError)
  | panicked
  deriving Repr

/-- `ShmSegment::attach` (src/lib.rs lines 130–139):

```rust
let block = ShmBlock::new(len).unwrap();
let seg_id = display.generate_xid()?;
display.shm_attach_checked(seg_id, block.shm_id() as _, true)?;
Ok(Self { block, seg_id })
```

`xidResult` is the `generate_xid` outcome and `attachReq` the outcome of
`shm_attach_checked` as a function of (seg id, shm id, read_only). -/
def ShmSegment.attach (os : OsState) (oracle : OsOracle) (len : Nat)
    (xidResult : Except XError Nat)
    (attachReq : Nat → Nat → Bool → Except XError Unit) :
    OsState × CallOutcome ShmSegment :=
  match ShmBlock.new os oracle len with
  | (os1, Except.error _) => (os1, CallOutcome.panicked)
  | (os1, Except.ok block) =>
    match xidResult with
    | Except.error e => (os1, CallOutcome.err e)
    | Except.ok seg_id =>
      match attachReq seg_id block.shm_id true with
      | Except.error e => (os1, CallOutcome.err e)
      | Except.ok _ => (os1, CallOutcome.ok ⟨block, seg_id⟩)

/-- `ShmBuffer::attach` (src/lib.rs lines 149–161): same shape, with
`ShmTransport::new(len).unwrap()` and `read_only = false`. -/
def ShmBuffer.attach (os : OsState) (oracle : OsOracle) (len : Nat)
    (xidResult : Except XError Nat)
    (attachReq : Nat → Nat → Bool → Except XError Unit) :
    OsState × CallOutcome ShmBuffer :=
  match ShmTransport.new os oracle len with
  | (os1, Except.error _) => (os1, CallOutcome.panicked)
  | (os1, Except.ok t) =>
    match xidResult with
    | Except.error e => (os1, CallOutcome.err e)
    | Except.ok seg_id =>
      match attachReq seg_id t.segment.shm_id false with
      | Except.error e => (os1, CallOutcome.err e)
      | Except.ok _ => (os1, CallOutcome.ok ⟨t, seg_id⟩)

/-- The `shm::GetImageReply` fields forwarded to the caller. -/
structure GetImageReply where
  depth : Nat
  visual : Nat
  size : Nat
  deriving DecidableEq, Repr

/-- `ShmDisplayExt::shm_get_ximage` (src/lib.rs lines 183–207):

```rust
let reply = self.shm_get_image_immediate(...)?;
image.storage_mut().repopulate();
Ok(reply)
```

`replyResult` is the outcome of `shm_get_image_immediate`; by the time it
returns `Ok`, the server has written the requested pixels into the shared
segment, so `image.transport.segment` already holds the contents at reply
time.  The outer `Option` is the (unreachable under the length invariant)
panic of `copy_from_slice` inside `repopulate`. -/
def shm_get_ximage (replyResult : Except XError GetImageReply)
    (image : ShmBuffer) :
    Option (Except XError (GetImageReply × ShmBuffer)) :=
  match replyResult with
  | Except.error e => some (Except.error e)
  | Except.ok reply =>
    (image.repopulate).map (fun image1 => Except.ok (reply, image1))

/-- The wait phase of `ShmDisplayExt::shm_put_ximage` for a given image:
the loop compares incoming completions against the image's `seg_id` and
extends the caller-supplied queue. -/
def shm_put_ximage_wait (image : ShmSegment) (events queue : List Event) :
    WaitOutcome :=
  putWaitLoop image.seg_id events queue

/-!
Claims.
-/

/-- C1: the completion-wait loop of `shm_put_ximage` returns success
exactly when the display's event stream yields a ShmCompletion event
whose `shmseg` equals the image's `seg_id` (matching strictly by segment
identifier equality); against a stream that never yields such an event
the loop is still blocked after consuming any finite number of events,
i.e. it never returns. -/
theorem shm_put_ximage_completes_iff_matching (image : ShmSegment) :
    (∀ events queue : List Event,
        (shm_put_ximage_wait image events queue).isCompleted = true ↔
          ∃ e ∈ events, Event.matchesSeg image.seg_id e = true) ∧
    (∀ stream : Nat → Event,
        (∀ i, Event.matchesSeg image.seg_id (stream i) = false) →
          ∀ n, shm_put_ximage_wait image (streamTake stream n) [] =
            WaitOutcome.blocked (streamTake stream n)) := by
  constructor
  · intro events queue
    exact putWaitLoop_isCompleted_iff image.seg_id events queue
  · intro stream hs n
    cases h : shm_put_ximage_wait image (streamTake stream n) [] with
    | completed q =>
      exfalso
      have hc : (putWaitLoop image.seg_id (streamTake stream n) []).isCompleted = true := by
        unfold shm_put_ximage_wait at h
        rw [h]; rfl
      obtain ⟨e, he, hm⟩ := (putWaitLoop_isCompleted_iff image.seg_id _ []).mp hc
      obtain ⟨i, _, rfl⟩ := List.mem_map.mp he
      rw [hs i] at hm
      exact Bool.false_ne_true hm
    | blocked q =>
      have hq : q = [] ++ streamTake stream n :=
        putWaitLoop_blocked_eq image.seg_id (streamTake stream n) [] q h
      rw [hq, List.nil_append]

/-- C1 witness: with `seg_id = 1`, a stream yielding an unrelated event
then a matching completion makes the wait return; a stream of only
non-SHM events leaves it blocked with all three events consumed. -/
theorem shm_put_ximage_completes_iff_matching_witness :
    (shm_put_ximage_wait ⟨⟨0, []⟩, 1⟩
        [Event.other 5, Event.shmCompletion ⟨1, 9⟩] []).isCompleted = true ∧
    shm_put_ximage_wait ⟨⟨0, []⟩, 1⟩ (streamTake (fun i => Event.other i) 3) [] =
      WaitOutcome.blocked (streamTake (fun i => Event.other i) 3) := by
  constructor
  · exact ((shm_put_ximage_completes_iff_matching ⟨⟨0, []⟩, 1⟩).1
        [Event.other 5, Event.shmCompletion ⟨1, 9⟩] []).mpr
      ⟨Event.shmCompletion ⟨1, 9⟩, by simp, by decide⟩
  · exact (shm_put_ximage_completes_iff_matching ⟨⟨0, []⟩, 1⟩).2
      (fun i => Event.other i) (fun i => rfl) 3

/-- C2: during the completion wait, every event read that is not the
matching completion — non-SHM events and completions for other segments
alike — is appended to the caller-supplied queue unchanged, exactly once,
in arrival order, and does not terminate the wait: on `break` the queue
holds exactly the events preceding the first matching completion (which
itself is consumed, never queued), and while still blocked it holds every
event read so far. -/
theorem shm_put_ximage_queue_exact (image : ShmSegment)
    (events queue q : List Event) :
    (shm_put_ximage_wait image events queue = WaitOutcome.completed q →
        q = queue ++
          events.takeWhile (fun e => !Event.matchesSeg image.seg_id e)) ∧
    (shm_put_ximage_wait image events queue = WaitOutcome.blocked q →
        q = queue ++ events) :=
  ⟨putWaitLoop_completed_eq image.seg_id events queue q,
   putWaitLoop_blocked_eq image.seg_id events queue q⟩

/-- C2 witness: with `seg_id = 1` and events (other 4, completion for
segment 2, completion for segment 1), the wait breaks with the first two
events — the foreign-segment completion included — queued in order, and
the matching completion absent. -/
theorem shm_put_ximage_queue_exact_witness :
    ([Event.other 4, Event.shmCompletion ⟨2, 0⟩] : List Event) =
      [] ++ List.takeWhile (fun e => !Event.matchesSeg 1 e)
        [Event.other 4, Event.shmCompletion ⟨2, 0⟩, Event.shmCompletion ⟨1, 7⟩] :=
  (shm_put_ximage_queue_exact ⟨⟨0, []⟩, 1⟩
      [Event.other 4, Event.shmCompletion ⟨2, 0⟩, Event.shmCompletion ⟨1, 7⟩]
      [] [Event.other 4, Event.shmCompletion ⟨2, 0⟩]).1 (by decide)

/-- C3: on a transport whose segment the peer is not writing, `publish`
(push) followed by `repopulate` (pull) is the identity on the private
buffer: both whole-buffer copies succeed and the buffer seen through
`as_ref` afterwards equals its contents before `publish`. -/
theorem publish_then_repopulate_roundtrip (t : ShmTransport) (h : t.lenInv) :
    (t.publish.bind ShmTransport.repopulate).map ShmTransport.as_ref =
      some t.as_ref := by
  unfold ShmTransport.lenInv at h
  simp [ShmTransport.publish, ShmTransport.repopulate, ShmTransport.as_ref,
    copyFromSlice, h]

/-- C3 witness: round trip on a 3-byte transport holding `[1, 2, 3]`
privately over a segment holding `[9, 9, 9]`. -/
theorem publish_then_repopulate_roundtrip_witness :
    ((ShmTransport.publish ⟨[1, 2, 3], ⟨0, [9, 9, 9]⟩⟩).bind
        ShmTransport.repopulate).map ShmTransport.as_ref =
      some (ShmTransport.as_ref ⟨[1, 2, 3], ⟨0, [9, 9, 9]⟩⟩) :=
  publish_then_repopulate_roundtrip ⟨[1, 2, 3], ⟨0, [9, 9, 9]⟩⟩ (by decide)

/-- C4 counterexample: obtaining a mutable view never fails.
`ShmBlock::as_mut` (and `ShmSegment`'s `as_mut`/`deref_mut`, which
delegate to it) silently returns the mutable byte view; the
implementation stores no `shared` flag and consults no protocol state, so
the very same `some` result is returned while a put referencing the
segment is in flight — the failure/abort the claim requires never
happens, at this input or any other. -/
theorem as_mut_while_shared_counterexample :
    ShmBlock.as_mut ⟨3, [0, 0, 0, 0]⟩ = some [0, 0, 0, 0] ∧
    ShmSegment.as_mut ⟨⟨3, [0, 0, 0, 0]⟩, 7⟩ = some [0, 0, 0, 0] :=
  ⟨rfl, rfl⟩

/-- C4 amended: mutable access never fails or aborts — `as_mut` /
`deref_mut` unconditionally return the mutable byte view of the block,
whatever sharing state the protocol is in (the implementation keeps no
`shared` flag that could make them fail). -/
theorem as_mut_always_returns (b : ShmBlock) (s : ShmSegment) :
    b.as_mut = some b.data ∧ s.as_mut = some s.block.data :=
  ⟨rfl, rfl⟩

/-- C5 counterexample: starting from an OS with next id 5 and nothing
allocated, a run where `shmget` succeeds and `shmat` fails returns
`MapError` with segment 5 still allocated: `with_flags` never calls
`shmctl(IPC_RMID)` on this path, so the OS segment is leaked rather than
destroyed. -/
theorem with_flags_map_failure_counterexample :
    ShmBlock.with_flags ⟨5, []⟩ ⟨false, true, fun _ => 0⟩ 16 ShmBlock.newFlags =
      (⟨6, [5]⟩, Except.error OsError.mapError) ∧
    5 ∈ (ShmBlock.with_flags ⟨5, []⟩ ⟨false, true, fun _ => 0⟩ 16
        ShmBlock.newFlags).1.allocated := by
  exact ⟨rfl, by decide⟩

/-- C5 amended: for every length, if `shmget` succeeds but `shmat` fails,
`with_flags` returns `MapError` WITHOUT destroying the freshly allocated
OS segment — its id remains in the OS's allocated set (the `Drop`
cleanup only runs for successfully constructed blocks), so the segment is
leaked on this error path. -/
theorem with_flags_map_failure_leaks (os : OsState) (oracle : OsOracle)
    (len flags : Nat) (hget : oracle.shmgetFails = false)
    (hat : oracle.shmatFails = true) :
    (ShmBlock.with_flags os oracle len flags).2 =
        Except.error OsError.mapError ∧
    os.nextId ∈ (ShmBlock.with_flags os oracle len flags).1.allocated := by
  simp [ShmBlock.with_flags, hget, hat]

/-- C5 amended witness: concrete leaking run at length 8. -/
theorem with_flags_map_failure_leaks_witness :
    (ShmBlock.with_flags ⟨0, []⟩ ⟨false, true, fun _ => 0⟩ 8
        ShmBlock.newFlags).2 = Except.error OsError.mapError ∧
    (0 : Nat) ∈ (ShmBlock.with_flags ⟨0, []⟩ ⟨false, true, fun _ => 0⟩ 8
        ShmBlock.newFlags).1.allocated :=
  with_flags_map_failure_leaks ⟨0, []⟩ ⟨false, true, fun _ => 0⟩ 8
    ShmBlock.newFlags rfl rfl

/-- C6 counterexample: when the OS refuses allocation, `ShmSegment::attach`
and `ShmBuffer::attach` panic — the `.unwrap()` on `ShmBlock::new` /
`ShmTransport::new` terminates the process instead of returning the
failure as an `Err` value. -/
theorem attach_alloc_failure_counterexample :
    (ShmSegment.attach ⟨0, []⟩ ⟨true, false, fun _ => 0⟩ 16 (Except.ok 7)
        (fun _ _ _ => Except.ok ())).2 = CallOutcome.panicked ∧
    (ShmBuffer.attach ⟨0, []⟩ ⟨true, false, fun _ => 0⟩ 16 (Except.ok 7)
        (fun _ _ _ => Except.ok ())).2 = CallOutcome.panicked :=
  ⟨rfl, rfl⟩

/-- C6 amended: OS allocation or mapping failure during either `attach`
makes the call panic (unwrap), never yielding an `Err`; only
XID-generation (and attach-request) failures come back as recoverable
`Err` values. -/
theorem attach_error_propagation (os : OsState) (oracle : OsOracle)
    (len : Nat) (xid : Except XError Nat)
    (req : Nat → Nat → Bool → Except XError Unit) :
    ((oracle.shmgetFails = true ∨ oracle.shmatFails = true) →
        (ShmSegment.attach os oracle len xid req).2 = CallOutcome.panicked ∧
        (ShmBuffer.attach os oracle len xid req).2 = CallOutcome.panicked) ∧
    (∀ e, oracle.shmgetFails = false → oracle.shmatFails = false →
        xid = Except.error e →
        (ShmSegment.attach os oracle len xid req).2 = CallOutcome.err e ∧
        (ShmBuffer.attach os oracle len xid req).2 = CallOutcome.err e) := by
  obtain ⟨g, a, f⟩ := oracle
  constructor
  · rintro (h | h) <;> simp only at h <;> subst h
    · constructor <;>
        simp [ShmSegment.attach, ShmBuffer.attach, ShmBlock.new,
          ShmBlock.with_flags, ShmTransport.new]
    · cases g <;> constructor <;>
        simp [ShmSegment.attach, ShmBuffer.attach, ShmBlock.new,
          ShmBlock.with_flags, ShmTransport.new]
  · intro e hg ha hx
    simp only at hg ha
    subst hg; subst ha; subst hx
    constructor <;>
      simp [ShmSegment.attach, ShmBuffer.attach, ShmBlock.new,
        ShmBlock.with_flags, ShmTransport.new]

/-- C6 amended witness: a run where `shmat` fails panics in both attach
paths. -/
theorem attach_error_propagation_witness :
    (ShmSegment.attach ⟨0, []⟩ ⟨false, true, fun _ => 0⟩ 4 (Except.ok 9)
        (fun _ _ _ => Except.ok ())).2 = CallOutcome.panicked ∧
    (ShmBuffer.attach ⟨0, []⟩ ⟨false, true, fun _ => 0⟩ 4 (Except.ok 9)
        (fun _ _ _ => Except.ok ())).2 = CallOutcome.panicked :=
  (attach_error_propagation ⟨0, []⟩ ⟨false, true, fun _ => 0⟩ 4 (Except.ok 9)
      (fun _ _ _ => Except.ok ())).1 (Or.inr rfl)

/-- C7: whenever `shm_get_ximage` returns successfully, the image's
private buffer has been overwritten with the shared segment's contents —
the repopulate (pull) ran after `shm_get_image_immediate` returned its
reply and before `shm_get_ximage` returned — and the typed reply is
handed to the caller. -/
theorem shm_get_ximage_pulls_before_return
    (replyResult : Except XError GetImageReply) (image : ShmBuffer)
    (reply : GetImageReply) (image1 : ShmBuffer)
    (h : shm_get_ximage replyResult image =
        some (Except.ok (reply, image1))) :
    image1.transport.block = image.transport.segment.data ∧
    replyResult = Except.ok reply ∧
    image1.transport.segment = image.transport.segment ∧
    image1.seg_id = image.seg_id := by
  cases replyResult with
  | error e => simp [shm_get_ximage] at h
  | ok r =>
    by_cases hl :
        image.transport.block.length = image.transport.segment.data.length
    · simp [shm_get_ximage, ShmBuffer.repopulate, ShmTransport.repopulate,
        copyFromSlice, hl] at h
      obtain ⟨hr, hi⟩ := h
      subst hr
      rw [← hi]
      exact ⟨rfl, rfl, rfl, rfl⟩
    · simp [shm_get_ximage, ShmBuffer.repopulate, ShmTransport.repopulate,
        copyFromSlice, hl] at h

/-- C7 witness: a 2-byte image whose segment the server filled with
`[7, 8]`; after a successful `shm_get_ximage` its private buffer is
`[7, 8]` and the reply comes back intact. -/
theorem shm_get_ximage_pulls_before_return_witness :
    ([7, 8] : List Nat) = [7, 8] ∧
    (Except.ok ⟨24, 1, 2⟩ : Except XError GetImageReply) =
      Except.ok ⟨24, 1, 2⟩ ∧
    (⟨0, [7, 8]⟩ : ShmBlock) = ⟨0, [7, 8]⟩ ∧
    (3 : Nat) = 3 :=
  shm_get_ximage_pulls_before_return (Except.ok ⟨24, 1, 2⟩)
    ⟨⟨[0, 0], ⟨0, [7, 8]⟩⟩, 3⟩ ⟨24, 1, 2⟩ ⟨⟨[7, 8], ⟨0, [7, 8]⟩⟩, 3⟩
    rfl

/-- C8: the send-side segment (`ShmBlock::new`, used by `ShmSegment`) is
created at mode 0744 — owner read/write, every other process read-only
(no group/other write bits) — while the receive-side transport's segment
(`ShmTransport::new`, used by `ShmBuffer`) is deliberately created at
mode 0777, granting other processes write access. -/
theorem segment_creation_modes :
    ShmBlock.newFlags = 0o744 ∧ ShmTransport.newFlags = 0o777 ∧
    ShmBlock.newFlags &&& 0o200 = 0o200 ∧
    ShmBlock.newFlags &&& 0o022 = 0 ∧
    ShmTransport.newFlags &&& 0o022 = 0o022 := by
  decide

/-- C9: `ShmTransport::new(len)` gives the private buffer and the shared
segment length `len` each, and every transport operation preserves the
equality: `repopulate` and `publish` succeed — their whole-buffer copies
are between equal-length slices — and preserve it, writes through the
`as_mut` view cannot change the length, and `as_ref` / `shm_id` are pure
observations of the unchanged transport. -/
theorem transport_length_invariant :
    (∀ os oracle len os1 t,
        ShmTransport.new os oracle len = (os1, Except.ok t) →
          t.block.length = len ∧ t.segment.data.length = len) ∧
    (∀ t : ShmTransport, t.lenInv →
        (∃ t1, t.repopulate = some t1 ∧ t1.lenInv) ∧
        (∃ t1, t.publish = some t1 ∧ t1.lenInv) ∧
        (∀ f, (t.writeBlock f).lenInv) ∧
        t.as_ref = t.block ∧ t.shm_id = t.segment.shm_id) := by
  constructor
  · intro os oracle len os1 t h
    obtain ⟨g, a, f⟩ := oracle
    cases g <;> cases a <;>
      simp [ShmTransport.new, ShmBlock.with_flags] at h
    rw [← h.2]
    simp
  · intro t h
    unfold ShmTransport.lenInv at h
    refine ⟨⟨{ t with block := t.segment.data }, ?_, ?_⟩,
      ⟨{ t with segment := { t.segment with data := t.block } }, ?_, ?_⟩,
      ?_, rfl, rfl⟩
    · simp [ShmTransport.repopulate, copyFromSlice, h]
    · unfold ShmTransport.lenInv
      simp
    · simp [ShmTransport.publish, copyFromSlice, h]
    · unfold ShmTransport.lenInv
      simp
    · intro f
      unfold ShmTransport.lenInv ShmTransport.writeBlock
      simp [h]

/-- C9 witness: a fresh length-3 transport has both lengths 3, and on a
concrete length-2 transport `repopulate` succeeds preserving the
invariant. -/
theorem transport_length_invariant_witness :
    (([0, 0, 0] : List Nat).length = 3 ∧
      ([5, 6, 7] : List Nat).length = 3) ∧
    ∃ t1, ShmTransport.repopulate ⟨[1, 2], ⟨0, [3, 4]⟩⟩ = some t1 ∧
      t1.lenInv :=
  ⟨transport_length_invariant.1 ⟨2, []⟩ ⟨false, false, fun i => i + 5⟩ 3
      ⟨3, [2]⟩ ⟨[0, 0, 0], ⟨2, [5, 6, 7]⟩⟩ rfl,
   (transport_length_invariant.2 ⟨[1, 2], ⟨0, [3, 4]⟩⟩ (by decide)).1⟩

/-- C10: immediately after `ShmTransport::new(len)` succeeds — and hence
inside any `ShmBuffer` produced by `ShmBuffer::attach` — the private
buffer seen through `as_ref`/deref is exactly `len` zero bytes, whatever
initial contents the OS gave the freshly mapped segment: the segment is
not observable through the transport before an explicit repopulate. -/
theorem transport_new_zeroed :
    (∀ os oracle len os1 t,
        ShmTransport.new os oracle len = (os1, Except.ok t) →
          t.as_ref = List.replicate len 0) ∧
    (∀ os oracle len xid req os1 b,
        ShmBuffer.attach os oracle len xid req = (os1, CallOutcome.ok b) →
          b.as_ref = List.replicate len 0) := by
  have hnew : ∀ (os : OsState) (oracle : OsOracle) (len : Nat) os1 t,
      ShmTransport.new os oracle len = (os1, Except.ok t) →
        t.as_ref = List.replicate len 0 := by
    intro os oracle len os1 t h
    obtain ⟨g, a, f⟩ := oracle
    cases g <;> cases a <;>
      simp [ShmTransport.new, ShmBlock.with_flags] at h
    rw [← h.2]
    rfl
  refine ⟨hnew, ?_⟩
  intro os oracle len xid req os1 b h
  unfold ShmBuffer.attach at h
  cases hn : ShmTransport.new os oracle len with
  | mk osn r =>
    cases r with
    | error e => rw [hn] at h; cases h
    | ok t =>
      rw [hn] at h
      cases xid with
      | error e => cases h
      | ok sid =>
        cases hr : req sid t.segment.shm_id false with
        | error e => simp only [hr] at h; cases h
        | ok u =>
          simp only [hr] at h
          cases h
          exact hnew os oracle len _ t hn

/-- C10 witness: a successful creation at length 3 over a segment the OS
initialized to `[17, 18, 19]` yields the all-zero private buffer. -/
theorem transport_new_zeroed_witness :
    ShmTransport.as_ref ⟨[0, 0, 0], ⟨0, [17, 18, 19]⟩⟩ =
      List.replicate 3 0 :=
  transport_new_zeroed.1 ⟨0, []⟩ ⟨false, false, fun i => i + 17⟩ 3 ⟨1, [0]⟩
    ⟨[0, 0, 0], ⟨0, [17, 18, 19]⟩⟩ rfl

end BreadxShm
